import Mathlib

/-!
Shallow embedding of the dispatch-and-instrumentation core of the
chtc-go-logger repository: the fan-out dispatcher (`LogDispatcher`), the
stats collector (`logDispatchStatHandler`), the syslog forwarder
(`SyslogHandler`), the health monitor's backend-querier step, the color
console handler and logger construction (`createLogger`).

Go `error` values are modelled as `GoErr` (an opaque id); a Go `error`
result is `Option GoErr` (`none` = nil).  `time.Time` is modelled as a
`Nat` tick count whose zero value is `0`.  Stateful Go code is embedded by
explicit state passing: a sink handler is a function from a record and a
world to a new world and an error, so that the order and multiplicity of
sink invocations is observable in the world.
-/

/-- An opaque Go `error` value (non-nil). -/
abbrev GoErr := Nat

/-- A record attribute, `slog.Attr` restricted to string keys/values as the
repository uses them. -/
structure Attr where
  key : String
  value : String
deriving DecidableEq, Repr

/-- `slog.Record`: level (the `slog` integer scale), message, attributes. -/
structure Rec where
  level : Int
  message : String
  attrs : List Attr
deriving DecidableEq, Repr

/-- `slog.LevelDebug`. -/
def levelDebug : Int := -4

/-- `slog.LevelInfo`. -/
def levelInfo : Int := 0

/-- `slog.LevelWarn`. -/
def levelWarn : Int := 4

/-- `slog.LevelError`. -/
def levelError : Int := 8

/-- `errors.Join` as used on an already-filtered list of non-nil errors:
the result is nil (`none`) iff the list is empty, and otherwise wraps
exactly the given errors in order. -/
def errorsJoin (errs : List GoErr) : Option (List GoErr) :=
  if errs.isEmpty then none else some errs

/-- A sink handler's `Handle` method: takes the record and the current
world, returns the new world and the Go error result.  The world makes
the side effects of each invocation observable. -/
structure SlogHandler (ω : Type) where
  handle : Rec → ω → ω × Option GoErr

/-- `LogDispatcher` (logger.go): holds the ordered list of sink handlers. -/
structure LogDispatcher (ω : Type) where
  handlers : List (SlogHandler ω)

/-- The body of the `for _, handler := range d.handlers` loop in
`LogDispatcher.Handle`: run one handler, append its non-nil error. -/
def dispatchStep (r : Rec) (acc : ω × List GoErr) (h : SlogHandler ω) :
    ω × List GoErr :=
  let (w, errs) := acc
  let (w2, e) := h.handle r w
  match e with
  | some err => (w2, errs ++ [err])
  | none => (w2, errs)

/-- `LogDispatcher.Handle` (logger.go lines 601-609): invoke every handler
in list order, accumulating non-nil errors, and return
`errors.Join(errs...)` together with the final world. -/
def LogDispatcher.Handle (d : LogDispatcher ω) (r : Rec) (w : ω) :
    ω × Option (List GoErr) :=
  let (w2, errs) := d.handlers.foldl (dispatchStep r) (w, [])
  (w2, errorsJoin errs)

/-- An instrumented sink handler for observing dispatch behaviour: the
world is the list of invocation events; sink `i` appends `i` on every
invocation and fails according to the outcome function `f`. -/
def instrSink (f : Nat → Option GoErr) (i : Nat) : SlogHandler (List Nat) :=
  ⟨fun _ w => (w ++ [i], f i)⟩

/-- The dispatcher over `n` instrumented sinks `0,…,n-1`. -/
def instrDispatcher (n : Nat) (f : Nat → Option GoErr) :
    LogDispatcher (List Nat) :=
  ⟨(List.range n).map (instrSink f)⟩

theorem dispatch_foldl_instr (L : List Nat) (f : Nat → Option GoErr)
    (r : Rec) (w0 : List Nat) (errs0 : List GoErr) :
    (L.map (instrSink f)).foldl (dispatchStep r) (w0, errs0) =
      (w0 ++ L, errs0 ++ L.filterMap f) := by
  induction L generalizing w0 errs0 with
  | nil => simp
  | cons i L ih =>
    simp only [List.map_cons, List.foldl_cons, List.filterMap_cons]
    cases hf : f i with
    | none =>
      simp only [dispatchStep, instrSink, hf]
      rw [ih]
      simp
    | some e =>
      simp only [dispatchStep, instrSink, hf]
      rw [ih]
      simp

/-- C1: `LogDispatcher.Handle` invokes every registered sink handler
exactly once, in list order, regardless of earlier failures (the
invocation trace over `n` instrumented sinks is exactly `[0,…,n-1]`
whatever the per-sink outcomes `f` are), the accumulated error list is
the per-sink non-nil errors in order, and the joined error it returns is
non-nil iff at least one sink handler returned a non-nil error. -/
theorem logDispatcher_handle_fanout (n : Nat) (f : Nat → Option GoErr)
    (r : Rec) :
    ((instrDispatcher n f).Handle r []).1 = List.range n ∧
    ((instrDispatcher n f).Handle r []).2 =
      errorsJoin ((List.range n).filterMap f) ∧
    (((instrDispatcher n f).Handle r []).2.isSome ↔
      ∃ i ∈ List.range n, (f i).isSome) := by
  have h := dispatch_foldl_instr (List.range n) f r [] []
  refine ⟨?_, ?_, ?_⟩
  · simp [LogDispatcher.Handle, instrDispatcher, h]
  · simp [LogDispatcher.Handle, instrDispatcher, h]
  · simp only [LogDispatcher.Handle, instrDispatcher, h]
    simp only [List.nil_append, errorsJoin]
    constructor
    · intro hs
      by_contra hnone
      push_neg at hnone
      have : (List.range n).filterMap f = [] := by
        apply List.filterMap_eq_nil_iff.mpr
        intro i hi
        have hni := hnone i hi
        cases hfi : f i with
        | none => rfl
        | some e =>
          rw [hfi] at hni
          simp at hni
      simp [this] at hs
    · rintro ⟨i, hi, hsome⟩
      cases hfi : f i with
      | none => simp [hfi] at hsome
      | some e =>
        have hmem : e ∈ (List.range n).filterMap f :=
          List.mem_filterMap.mpr ⟨i, hi, hfi⟩
        have hne : ¬ (List.range n).filterMap f = [] := by
          intro hemp
          rw [hemp] at hmem
          exact absurd hmem (List.not_mem_nil e)
        simp [List.isEmpty_iff, hne]

/-! ## Stats collector (`logDispatchStatHandler`) and health monitor -/

/-- `lastHealthCheckStatus` / `HealthCheckStatus` (healthcheck.go): the
last known health check timestamp and any query error.  The Go zero
value is `⟨0, none⟩`. -/
structure HealthCheckStatus where
  Timestamp : Nat
  Err : Option GoErr
deriving DecidableEq, Repr

/-- `handlers.NamedHandler`: a sink handler paired with its
`HandlerType` tag (`type HandlerType string`).  For the stats layer the
handler is modelled by its per-record outcome. -/
structure NamedHandler where
  HandlerType : String
  handle : Rec → Option GoErr

/-- `LogError` (part_002): an error from one of the logger's
sub-handlers.  `Handler = none` models the Go zero-value `NamedHandler`
left on the disk-stat entry, which carries no sink attribution. -/
structure LogError where
  Err : GoErr
  Record : Rec
  Handler : Option NamedHandler

/-- `LogStats` (part_002): per-call telemetry. -/
structure LogStats where
  Duration : Nat
  DiskAvail : Nat
  Errors : List LogError
  HealthCheck : HealthCheckStatus

/-- `config.FileOutputConfig` (the fields the core reads). -/
structure FileOutputConfig where
  Enabled : Bool
  FilePath : String
  MaxFileSize : Nat
  MaxBackups : Nat
  MaxAgeDays : Nat
deriving DecidableEq, Repr

/-- `config.ConsoleOutputConfig`. -/
structure ConsoleOutputConfig where
  Enabled : Bool
  JSONOutput : Bool
  Colors : Bool
deriving DecidableEq, Repr

/-- `config.SyslogOutputConfig`. -/
structure SyslogOutputConfig where
  Enabled : Bool
  JSONOutput : Bool
  Network : String
  Addr : String
deriving DecidableEq, Repr

/-- `config.Config` (the sections the core reads). -/
structure Config where
  ConsoleOutput : ConsoleOutputConfig
  FileOutput : FileOutputConfig
  SyslogOutput : SyslogOutputConfig
deriving DecidableEq, Repr

/-- `logDispatchStatHandler.statLogFS`: wraps the `unix.Statfs` syscall
outcome; on failure it returns `(0, err)`, on success the available
bytes.  The syscall outcome itself is environmental input. -/
def statLogFS (syscallOutcome : Except GoErr Nat) : Nat × Option GoErr :=
  match syscallOutcome with
  | .ok avail => (avail, none)
  | .error e => (0, some e)

/-- The `for _, handler := range s.handlers` loop of
`logDispatchStatHandler.Handle`: collect a `LogError` for every sink
whose handle returns a non-nil error, in order. -/
def sinkErrs (handlers : List NamedHandler) (r : Rec) : List LogError :=
  handlers.foldl
    (fun errs h =>
      match h.handle r with
      | some err => errs ++ [⟨err, r, some h⟩]
      | none => errs)
    []

/-- `logDispatchStatHandler.Handle` (part_002 lines 125-180): run every
sink, collect per-sink errors; if file output is enabled, stat the log
filesystem, record `DiskAvail`, and append an unattributed `LogError` if
the stat failed; snapshot the health check; return the stats and
`errors.Join` of all collected errors.  `statfs` is the syscall outcome,
`health` the currently published snapshot pointer (`none` = never
stored), `elapsed` the measured duration. -/
def logDispatchStatHandler.Handle (handlers : List NamedHandler)
    (logConfig : Config) (statfs : Except GoErr Nat)
    (health : Option HealthCheckStatus) (elapsed : Nat) (r : Rec) :
    LogStats × Option (List GoErr) :=
  let errs0 := sinkErrs handlers r
  let (diskAvail, errs) :=
    if logConfig.FileOutput.Enabled then
      let (usage, err) := statLogFS statfs
      match err with
      | some e => (usage, errs0 ++ [⟨e, r, none⟩])
      | none => (usage, errs0)
    else (0, errs0)
  let stats : LogStats :=
    { Duration := elapsed
      DiskAvail := diskAvail
      Errors := errs
      HealthCheck :=
        match health with
        | some hc => hc
        | none => ⟨0, none⟩ }
  (stats, errorsJoin (errs.map LogError.Err))

/-- `fetchLastLogTimestamp` (healthcheck.go): every error path returns
the zero `time.Time{}` together with the error; the success path returns
the parsed timestamp and nil. -/
def fetchLastLogTimestampResult (outcome : Except GoErr Nat) :
    Nat × Option GoErr :=
  match outcome with
  | .ok t => (t, none)
  | .error e => (0, some e)

/-- One iteration of the backend-querier loop `queryElasticsearch`
(healthcheck.go lines 110-123): build the new status from the fetch
result and atomically store it as a whole value.  The previous snapshot
is not read. -/
def queryElasticsearchStore (outcome : Except GoErr Nat) :
    HealthCheckStatus :=
  let (timestamp, err) := fetchLastLogTimestampResult outcome
  { Timestamp := timestamp, Err := err }

/-- A sample record for concrete counterexamples. -/
def sampleRec : Rec := ⟨levelInfo, "Test msg", []⟩

/-- A configuration with only file output enabled, as in the repository's
own tests. -/
def fileOnlyConfig : Config :=
  { ConsoleOutput := ⟨false, false, false⟩
    FileOutput := ⟨true, "/tmp/out.log", 0, 0, 0⟩
    SyslogOutput := ⟨false, false, "", ""⟩ }

theorem errorsJoin_isSome (l : List GoErr) :
    (errorsJoin l).isSome ↔ l ≠ [] := by
  by_cases h : l = [] <;> simp [errorsJoin, h]

theorem sinkErrs_foldl (handlers : List NamedHandler) (r : Rec)
    (acc : List LogError) :
    handlers.foldl
      (fun errs h =>
        match h.handle r with
        | some err => errs ++ [⟨err, r, some h⟩]
        | none => errs)
      acc =
    acc ++ handlers.filterMap
      (fun h => (h.handle r).map fun e => (⟨e, r, some h⟩ : LogError)) := by
  induction handlers generalizing acc with
  | nil => simp
  | cons h hs ih =>
    cases hh : h.handle r with
    | none => simp [hh, ih]
    | some e => simp [hh, ih]

theorem sinkErrs_eq_filterMap (handlers : List NamedHandler) (r : Rec) :
    sinkErrs handlers r =
      handlers.filterMap
        (fun h => (h.handle r).map fun e => (⟨e, r, some h⟩ : LogError)) := by
  simpa [sinkErrs] using sinkErrs_foldl handlers r []

/-- C2 counterexample: with the published snapshot holding timestamp `5`
and a failing backend query, the newly stored snapshot's timestamp is
the zero value `0`, not the previous `5`: the timestamp is not retained
on failure. -/
theorem queryStore_drops_timestamp_cex :
    (queryElasticsearchStore (.error 3)).Timestamp ≠
      ({ Timestamp := 5, Err := none } : HealthCheckStatus).Timestamp := by
  decide

/-- C2 amended: each backend-querier iteration atomically replaces the
shared snapshot as a whole value with `{new timestamp, nil}` on success
and with `{zero timestamp, the error}` on failure (the previous
timestamp is not retained; the timestamp field is reset to the zero
value on failure). -/
theorem queryStore_replaces_snapshot (t : Nat) (e : GoErr) :
    queryElasticsearchStore (.ok t) = { Timestamp := t, Err := none } ∧
    queryElasticsearchStore (.error e) = { Timestamp := 0, Err := some e } :=
  ⟨rfl, rfl⟩

/-- C3 counterexample: with no sink handlers, file output enabled and a
failing disk-space query, the stats collector's `Handle` returns a
non-nil error even though the join of the per-sink write errors is nil:
the disk-stat error is included in the returned joined error. -/
theorem statsHandle_disk_error_returned_cex :
    (logDispatchStatHandler.Handle [] fileOnlyConfig (.error 7) none 0
        sampleRec).2 ≠
      errorsJoin ((sinkErrs [] sampleRec).map LogError.Err) := by
  decide

/-- C3 amended: the error returned by the stats collector's `Handle` is
the join of all recorded errors — the per-sink write errors together
with the disk-stat error when the disk-space query fails — and it is
non-nil iff the recorded `LogStats.Errors` list is non-empty. -/
theorem statsHandle_returns_join_of_all_errors
    (handlers : List NamedHandler) (logConfig : Config)
    (statfs : Except GoErr Nat) (health : Option HealthCheckStatus)
    (elapsed : Nat) (r : Rec) :
    (logDispatchStatHandler.Handle handlers logConfig statfs health elapsed
        r).2 =
      errorsJoin
        (((logDispatchStatHandler.Handle handlers logConfig statfs health
            elapsed r).1.Errors).map LogError.Err) ∧
    ((logDispatchStatHandler.Handle handlers logConfig statfs health elapsed
        r).2.isSome ↔
      (logDispatchStatHandler.Handle handlers logConfig statfs health
          elapsed r).1.Errors ≠ []) := by
  constructor
  · cases hEn : logConfig.FileOutput.Enabled <;>
      cases statfs <;>
      simp [logDispatchStatHandler.Handle, hEn, statLogFS]
  · cases hEn : logConfig.FileOutput.Enabled <;>
      cases statfs <;>
      simp [logDispatchStatHandler.Handle, hEn, statLogFS,
        errorsJoin_isSome]

/-- C4 counterexample: with zero registered sink handlers, file output
enabled and a failing disk-space query, the produced `LogStats.Errors`
list has one entry — more than the number of registered sink handlers —
and that entry's handler field is not one of the registered handlers
(it has no attribution at all). -/
theorem statsErrors_exceed_sinks_cex :
    ((logDispatchStatHandler.Handle [] fileOnlyConfig (.error 7) none 0
        sampleRec).1.Errors).length >
      ([] : List NamedHandler).length := by
  decide

/-- C4 amended: the number of `LogStats.Errors` entries is between 0 and
the number of registered sink handlers plus one extra slot for the
disk-stat error when file output is enabled; every entry either carries
the attribution of one of the registered sink handlers or is the
unattributed disk-stat entry (`Handler = none`). -/
theorem statsErrors_invariant (handlers : List NamedHandler)
    (logConfig : Config) (statfs : Except GoErr Nat)
    (health : Option HealthCheckStatus) (elapsed : Nat) (r : Rec) :
    ((logDispatchStatHandler.Handle handlers logConfig statfs health
        elapsed r).1.Errors).length ≤
      handlers.length +
        (if logConfig.FileOutput.Enabled then 1 else 0) ∧
    ∀ e ∈ (logDispatchStatHandler.Handle handlers logConfig statfs health
        elapsed r).1.Errors,
      (∃ h ∈ handlers, e.Handler = some h) ∨ e.Handler = none := by
  have hlen : (sinkErrs handlers r).length ≤ handlers.length := by
    rw [sinkErrs_eq_filterMap]
    exact List.length_filterMap_le _ _
  have hmem : ∀ e ∈ sinkErrs handlers r, ∃ h ∈ handlers, e.Handler = some h := by
    intro e he
    rw [sinkErrs_eq_filterMap] at he
    rcases List.mem_filterMap.mp he with ⟨h, hh, hmap⟩
    rcases Option.map_eq_some'.mp hmap with ⟨err, _, hE⟩
    exact ⟨h, hh, by rw [← hE]⟩
  constructor
  · cases hEn : logConfig.FileOutput.Enabled <;>
      cases statfs <;>
      simp [logDispatchStatHandler.Handle, hEn, statLogFS] <;>
      omega
  · intro e he
    cases hEn : logConfig.FileOutput.Enabled <;>
      cases hst : statfs <;>
      simp [logDispatchStatHandler.Handle, hEn, hst, statLogFS] at he
    · exact .inl (hmem e he)
    · exact .inl (hmem e he)
    · rcases he with he | he
      · exact .inl (hmem e he)
      · exact .inr (by rw [he])
    · exact .inl (hmem e he)

/-- C6: when the shared health-check snapshot has been set to any value
`v`, the `LogStats` produced by the next `Handle` invocation carries
exactly `v` (timestamp and error both) in its `HealthCheck` field. -/
theorem statsHandle_health_snapshot (handlers : List NamedHandler)
    (logConfig : Config) (statfs : Except GoErr Nat) (elapsed : Nat)
    (r : Rec) (v : HealthCheckStatus) :
    (logDispatchStatHandler.Handle handlers logConfig statfs (some v)
        elapsed r).1.HealthCheck = v := by
  cases hEn : logConfig.FileOutput.Enabled <;>
    cases statfs <;>
    simp [logDispatchStatHandler.Handle, hEn, statLogFS]

/-! ## Syslog forwarder (`SyslogHandler`, part_004) -/

/-- The syslog severity scale, as selected by the `switch` in
`SyslogHandler.Handle` (`writer.Debug` / `Info` / `Warning` / `Err`). -/
inductive SyslogSeverity where
  | debug
  | info
  | warning
  | err
deriving DecidableEq, Repr

/-- The `switch lvl := r.Level` of `SyslogHandler.Handle`: maps exactly
the four named `slog` levels; any other level matches no case (and no
send happens). -/
def syslogSeverity (level : Int) : Option SyslogSeverity :=
  if level = levelDebug then some .debug
  else if level = levelInfo then some .info
  else if level = levelWarn then some .warning
  else if level = levelError then some .err
  else none

/-- The render delegate of a syslog forwarder, kept as a syntax tree so
that applying attributes or a group is observable
(`slog.Handler.WithAttrs` / `WithGroup` on the delegate). -/
inductive RenderDelegate where
  | base (id : Nat)
  | withAttrs (d : RenderDelegate) (attrs : List Attr)
  | withGroup (d : RenderDelegate) (name : String)
deriving DecidableEq, Repr

/-- `handlers.SyslogHandler` (part_004): the shared render buffer, the
syslog connection and the mutex are heap objects shared by reference,
modelled by reference ids; `handler` is the render delegate. -/
structure SyslogHandler where
  buf : Nat
  writer : Nat
  mu : Nat
  handler : RenderDelegate
deriving DecidableEq, Repr

/-- `SyslogHandler.Handle` (part_004 lines 67-90), with the buffer state
passed explicitly: render the record through the delegate into the
buffer (early return on render failure, without resetting), read the
buffer back, reset it, then send at the mapped severity; the sends are
returned as events.  `delegate` is the child handler's write-to-buffer
behaviour and `send` the syslog writer's per-message outcome. -/
def SyslogHandler.HandleBuf
    (delegate : Rec → String → String × Option GoErr)
    (send : SyslogSeverity → String → Option GoErr)
    (r : Rec) (buf : String) :
    String × List (SyslogSeverity × String) × Option GoErr :=
  let (buf1, derr) := delegate r buf
  match derr with
  | some e => (buf1, [], some e)
  | none =>
    let msg := buf1
    let buf2 := ""
    match syslogSeverity r.level with
    | some sev => (buf2, [(sev, msg)], send sev msg)
    | none => (buf2, [], none)

/-- `SyslogHandler.WithAttrs` (part_004 lines 98-100): a new forwarder
sharing buffer, writer and mutex, with the attributes applied to the
delegate. -/
def SyslogHandler.WithAttrs (s : SyslogHandler) (attrs : List Attr) :
    SyslogHandler :=
  { handler := .withAttrs s.handler attrs, buf := s.buf, writer := s.writer,
    mu := s.mu }

/-- `SyslogHandler.WithGroup` (part_004 lines 93-95). -/
def SyslogHandler.WithGroup (s : SyslogHandler) (name : String) :
    SyslogHandler :=
  { handler := .withGroup s.handler name, buf := s.buf, writer := s.writer,
    mu := s.mu }

/-- A delegate that appends the record's message to the buffer and
succeeds; used for concrete witnesses. -/
def sampleDelegate : Rec → String → String × Option GoErr :=
  fun r buf => (buf ++ r.message, none)

/-- A syslog send that always succeeds; used for concrete witnesses. -/
def sampleSend : SyslogSeverity → String → Option GoErr :=
  fun _ _ => none

/-- C5: the forwarder maps Debug→debug, Info→info, Warn→warning,
Error→error on the syslog scale; every message it sends is sent at the
severity mapped from the record's level; and whenever `Handle` returns
successfully the shared render buffer is empty again, for every call
(hence for every sequence of calls). -/
theorem syslogHandle_severity_and_reset
    (delegate : Rec → String → String × Option GoErr)
    (send : SyslogSeverity → String → Option GoErr) (r : Rec)
    (buf : String) :
    (syslogSeverity levelDebug = some .debug ∧
     syslogSeverity levelInfo = some .info ∧
     syslogSeverity levelWarn = some .warning ∧
     syslogSeverity levelError = some .err) ∧
    (∀ sev msg,
      (sev, msg) ∈ (SyslogHandler.HandleBuf delegate send r buf).2.1 →
        syslogSeverity r.level = some sev) ∧
    ((SyslogHandler.HandleBuf delegate send r buf).2.2 = none →
      (SyslogHandler.HandleBuf delegate send r buf).1 = "") := by
  refine ⟨⟨rfl, rfl, rfl, rfl⟩, ?_, ?_⟩
  · intro sev msg hmem
    unfold SyslogHandler.HandleBuf at hmem
    cases hd : (delegate r buf).2 with
    | some e => simp [hd] at hmem
    | none =>
      cases hs : syslogSeverity r.level with
      | none => simp [hd, hs] at hmem
      | some s =>
        simp [hd, hs] at hmem
        rw [hmem.1]
  · intro hok
    unfold SyslogHandler.HandleBuf at hok ⊢
    cases hd : (delegate r buf).2 with
    | some e => simp [hd] at hok
    | none =>
      cases hs : syslogSeverity r.level with
      | none => simp [hd, hs]
      | some s => simp [hd, hs]

/-- C5 witness: a successful call with the sample delegate and sender
leaves the buffer empty. -/
theorem syslogHandle_severity_and_reset_witness :
    (SyslogHandler.HandleBuf sampleDelegate sampleSend sampleRec "").1 =
      "" := by
  have h := syslogHandle_severity_and_reset sampleDelegate sampleSend
    sampleRec ""
  exact h.2.2 rfl

/-- C7: `WithAttrs` and `WithGroup` on a syslog forwarder produce a new
forwarder whose buffer, connection and mutex are the very same objects
(same reference ids, so no second connection is dialed) and whose
delegate is the original delegate with the attributes or group applied;
as pure constructions they leave the original forwarder value
untouched. -/
theorem syslogWith_shares_refs (s : SyslogHandler) (attrs : List Attr)
    (name : String) :
    ((s.WithAttrs attrs).buf = s.buf ∧
     (s.WithAttrs attrs).writer = s.writer ∧
     (s.WithAttrs attrs).mu = s.mu ∧
     (s.WithAttrs attrs).handler = .withAttrs s.handler attrs) ∧
    ((s.WithGroup name).buf = s.buf ∧
     (s.WithGroup name).writer = s.writer ∧
     (s.WithGroup name).mu = s.mu ∧
     (s.WithGroup name).handler = .withGroup s.handler name) :=
  ⟨⟨rfl, rfl, rfl, rfl⟩, ⟨rfl, rfl, rfl, rfl⟩⟩

/-! ## Sequence tagger -/

/-- Modelled from the spec: the sequence tagger's implementation is not
under src (only its test `TestLogSequencing` and the configuration
documentation are).  Per the spec it assigns each record the next value
of a process-wide monotonically increasing counter starting at 1, using
an atomic increment.  `seqTagStep` is one atomic increment: from counter
state `c` it moves to `c + 1` and assigns the value `c + 1`. -/
def seqTagStep (counter : Nat) : Nat × Nat :=
  (counter + 1, counter + 1)

/-- Modelled from the spec: the sequence numbers assigned by `n`
linearized atomic increments starting from counter state `c`.  Because
the increment is atomic, `n` concurrent callers performing one increment
each linearize into some total order, and the `k`-th caller in that
order receives the `k`-th entry of this list; the interleaving only
permutes which caller gets which entry. -/
def assignSeqs : Nat → Nat → List Nat
  | _, 0 => []
  | c, n + 1 =>
    let (c2, v) := seqTagStep c
    v :: assignSeqs c2 n

theorem assignSeqs_eq_range (c n : Nat) :
    assignSeqs c n = List.range' (c + 1) n := by
  induction n generalizing c with
  | zero => rfl
  | succ n ih =>
    simp [assignSeqs, seqTagStep, ih, List.range'_succ]

/-- C8: with sequence tagging enabled, the sequence numbers assigned to
`N` records — each by an atomic increment of a process-wide counter
starting at 1 — are exactly the set `{1..N}`: `N` of them, no
duplicates, and a number is assigned iff it lies between 1 and `N`
(no gaps).  Which concurrent caller receives which number depends on the
interleaving, but the assigned set does not. -/
theorem seqTag_numbers_exactly_one_to_n (N : Nat) :
    (assignSeqs 0 N).length = N ∧
    (assignSeqs 0 N).Nodup ∧
    (∀ k, k ∈ assignSeqs 0 N ↔ 1 ≤ k ∧ k ≤ N) := by
  rw [assignSeqs_eq_range]
  refine ⟨List.length_range' .., List.nodup_range' _ _, ?_⟩
  intro k
  rw [List.mem_range'_1]
  omega

/-! ## Logger construction (`createLogger`) and color console handler -/

/-- `handlers.HandlerConsole`. -/
def HandlerConsole : String := "HandlerConsole"

/-- `handlers.HandlerFile`. -/
def HandlerFile : String := "HandlerFile"

/-- `handlers.HandlerSyslog`. -/
def HandlerSyslog : String := "HandlerSyslog"

/-- A descriptor of the concrete handler value `createLogger` builds for
each sink. -/
inductive HandlerDesc where
  | jsonStdout
  | colorConsole
  | textStdout
  | fileJSON (filePath : String) (maxSize maxBackups maxAgeDays : Nat)
  | syslogJSON (network addr : String)
  | syslogText (network addr : String)
deriving DecidableEq, Repr

/-- A `handlers.NamedHandler` as built by `createLogger`: the handler
descriptor with its `HandlerType` tag. -/
structure NamedHandlerDesc where
  Handler : HandlerDesc
  HandlerType : String
deriving DecidableEq, Repr

/-- The result of `createLogger`: the handler list on success, the
propagated error when establishing the syslog connection fails, or a
panic for file output with an empty path. -/
inductive CreateResult where
  | ok (handlers : List NamedHandlerDesc)
  | fail (e : GoErr)
  | panicked (msg : String)
deriving DecidableEq, Repr

/-- `createLogger` (logger.go lines 135-196, the stats-collecting
version): build the console handler if enabled (JSON, color or text);
panic if file output is enabled with an empty path, else build the file
handler; if syslog is enabled, dial (`syslogDial` is the dial outcome)
and fail on error, else build the syslog handler; finally, if no handler
was configured, fall back to a single text-to-stdout handler tagged
`HandlerSyslog`. -/
def createLogger (cfg : Config) (syslogDial : Except GoErr Unit) :
    CreateResult :=
  let handlers : List NamedHandlerDesc :=
    if cfg.ConsoleOutput.Enabled then
      [⟨if cfg.ConsoleOutput.JSONOutput then .jsonStdout
        else if cfg.ConsoleOutput.Colors then .colorConsole
        else .textStdout, HandlerConsole⟩]
    else []
  if cfg.FileOutput.Enabled && cfg.FileOutput.FilePath == "" then
    .panicked "File output enabled but file path is empty"
  else
    let handlers :=
      if cfg.FileOutput.Enabled then
        handlers ++
          [⟨.fileJSON cfg.FileOutput.FilePath cfg.FileOutput.MaxFileSize
              cfg.FileOutput.MaxBackups cfg.FileOutput.MaxAgeDays,
            HandlerFile⟩]
      else handlers
    if cfg.SyslogOutput.Enabled then
      match syslogDial with
      | .error e => .fail e
      | .ok _ =>
        let handlers := handlers ++
          [⟨if cfg.SyslogOutput.JSONOutput then
              .syslogJSON cfg.SyslogOutput.Network cfg.SyslogOutput.Addr
            else
              .syslogText cfg.SyslogOutput.Network cfg.SyslogOutput.Addr,
            HandlerSyslog⟩]
        .ok (if handlers.isEmpty then [⟨.textStdout, HandlerSyslog⟩]
             else handlers)
    else
      .ok (if handlers.isEmpty then [⟨.textStdout, HandlerSyslog⟩]
           else handlers)

/-- A configuration with all three sinks disabled. -/
def allOffConfig : Config :=
  { ConsoleOutput := ⟨false, false, false⟩
    FileOutput := ⟨false, "", 0, 0, 0⟩
    SyslogOutput := ⟨false, false, "", ""⟩ }

/-- C9: when console, file and syslog output are all disabled, logger
construction succeeds and installs exactly one fallback handler, a
text-to-stdout handler, tagged with the syslog handler kind
`HandlerSyslog` — not a console kind — so any dispatch error it produces
is attributed to syslog. -/
theorem createLogger_fallback (cfg : Config) (dial : Except GoErr Unit)
    (hc : cfg.ConsoleOutput.Enabled = false)
    (hf : cfg.FileOutput.Enabled = false)
    (hs : cfg.SyslogOutput.Enabled = false) :
    createLogger cfg dial = .ok [⟨.textStdout, HandlerSyslog⟩] ∧
      HandlerSyslog ≠ HandlerConsole := by
  constructor
  · simp [createLogger, hc, hf, hs]
  · decide

/-- C9 witness: the all-disabled configuration. -/
theorem createLogger_fallback_witness :
    createLogger allOffConfig (.ok ()) =
      .ok [⟨.textStdout, HandlerSyslog⟩] :=
  (createLogger_fallback allOffConfig (.ok ()) rfl rfl rfl).1

/-- `levelColors` (alias.go): ANSI color per named level; a missing key
yields the Go map default `""`. -/
def levelColors (level : Int) : String :=
  if level = levelDebug then "\x1b[36m"
  else if level = levelInfo then "\x1b[32m"
  else if level = levelWarn then "\x1b[33m"
  else if level = levelError then "\x1b[31m"
  else ""

/-- `ColorReset` (alias.go). -/
def ColorReset : String := "\x1b[0m"

/-- Go `fmt`'s `%+d`: a sign is always printed. -/
def signedDelta (v : Int) : String :=
  if 0 ≤ v then "+" ++ toString v else toString v

/-- `slog.Level.String()`: the nearest named level below, with a signed
offset when not exact. -/
def levelString (l : Int) : String :=
  if l < levelInfo then
    if l = levelDebug then "DEBUG" else "DEBUG" ++ signedDelta (l - levelDebug)
  else if l < levelWarn then
    if l = levelInfo then "INFO" else "INFO" ++ signedDelta (l - levelInfo)
  else if l < levelError then
    if l = levelWarn then "WARN" else "WARN" ++ signedDelta (l - levelWarn)
  else
    if l = levelError then "ERROR" else "ERROR" ++ signedDelta (l - levelError)

/-- `ColorConsoleHandler` (logger.go): holds only its output writer,
modelled by a reference id. -/
structure ColorConsoleHandler where
  output : Nat
deriving DecidableEq, Repr

/-- `ColorConsoleHandler.Handle` (logger.go lines 308-326): the text
written to the output writer for a record — level color, level string,
reset, message, and the record's own attributes joined by `", "`.  The
handler holds no attribute or group state of its own. -/
def ColorConsoleHandler.Handle (h : ColorConsoleHandler) (r : Rec) :
    Nat × String :=
  let levelColor :=
    if levelColors r.level = "" then ColorReset else levelColors r.level
  let attrs := r.attrs.map fun a => a.key ++ "=" ++ a.value
  (h.output,
    levelColor ++ levelString r.level ++ "\x1b[0m: " ++ r.message ++ " [" ++
      String.intercalate ", " attrs ++ "]\n")

/-- `ColorConsoleHandler.WithAttrs` (logger.go lines 329-331): returns
the receiver itself. -/
def ColorConsoleHandler.WithAttrs (h : ColorConsoleHandler)
    (attrs : List Attr) : ColorConsoleHandler :=
  h

/-- `ColorConsoleHandler.WithGroup` (logger.go lines 334-336): returns
the receiver itself. -/
def ColorConsoleHandler.WithGroup (h : ColorConsoleHandler)
    (name : String) : ColorConsoleHandler :=
  h

/-- C10: `ColorConsoleHandler.WithAttrs` and `WithGroup` are identity
operations — they return the receiver unchanged — so attributes or
groups added through them never change the color console output of any
subsequent record: the derived handler renders every record exactly as
the original does. -/
theorem colorConsole_with_ops_identity (h : ColorConsoleHandler)
    (attrs : List Attr) (name : String) (r : Rec) :
    h.WithAttrs attrs = h ∧
    h.WithGroup name = h ∧
    (h.WithAttrs attrs).Handle r = h.Handle r ∧
    (h.WithGroup name).Handle r = h.Handle r :=
  ⟨rfl, rfl, rfl, rfl⟩

